import Mathlib

/-!
Shallow embedding of the core of the `mkdocs-sysmlv2` repository
(`src/mkdocs_sysmlv2/model.py`, `parser.py`, `renderer.py`) together with
proofs about the claims of its specification.

Conventions used throughout:
* Python `Optional[str]` becomes `Option String`; Python truthiness of such
  a value (`None` and `""` are falsy) is `pyTruthy`.
* Python lists become Lean lists.  The `_node_index` / `_package_index`
  dictionaries of `SysMLModel` are views kept in sync with the `nodes` /
  `packages` lists by the code, so index lookups are modelled as name
  lookups in the corresponding list.
* In-place mutation is modelled by explicit state passing.
* The parser's `package_stack` is modelled with the stack top at the *head*
  of the list (the Python code appends and pops at the end of the list).
-/

namespace MkSys

/-- Python truthiness of an optional string: `None` and `""` are falsy. -/
def pyTruthy : Option String → Bool
  | none => false
  | some s => !(s == "")

/-- Auxiliary function for `pyDedup`, carrying the set of keys seen so far. -/
def pyDedupAux (seen : List String) : List String → List String
  | [] => []
  | a :: rest =>
    if a ∈ seen then pyDedupAux seen rest else a :: pyDedupAux (a :: seen) rest

/-- `list(dict.fromkeys(values))`: deduplication keeping the first occurrence,
as used by `SysMLModel.add_node` and `SysMLParser._unique`. -/
def pyDedup (l : List String) : List String := pyDedupAux [] l

/-- `SysMLPackage` from `model.py`: a package declaration. -/
structure SysMLPackage where
  name : String
  description : Option String := none
deriving Repr, DecidableEq

/-- `SysMLRelation` from `model.py`: a relation between two elements. -/
structure SysMLRelation where
  source : String
  target : String
  relation : String
  label : Option String := none
deriving Repr, DecidableEq

/-- `SysMLElement` from `model.py`: an element definition or usage. -/
structure SysMLElement where
  name : String
  kind : String
  flavor : Option String := none
  package : Option String := none
  type_of : List String := []
  specializes : List String := []
  modifiers : List String := []
  external : Bool := false
deriving Repr, DecidableEq

/-- `SysMLModel` from `model.py`: container for nodes, packages and
relations.  The `_node_index` and `_package_index` dictionaries are modelled
by lookups in `nodes` and `packages`. -/
structure SysMLModel where
  source_path : Option String := none
  nodes : List SysMLElement := []
  relations : List SysMLRelation := []
  packages : List SysMLPackage := []
deriving Repr, DecidableEq

/-- Lookup in the node index (`self._node_index.get(name)`). -/
def findNode (m : SysMLModel) (name : String) : Option SysMLElement :=
  m.nodes.find? (fun e => e.name == name)

/-- Membership test in the node index (`name in self._node_index`). -/
def hasNode (m : SysMLModel) (name : String) : Bool :=
  m.nodes.any (fun e => e.name == name)

/-- The merge performed by `SysMLModel.add_node` when a node with the same
name already exists ("preserve whichever information is richer").  The
Python code mutates `existing` field by field; the conditions only read the
incoming node and the original `existing` fields, so a single record update
is equivalent. -/
def mergeInto (existing node : SysMLElement) : SysMLElement :=
  { existing with
    package :=
      if !pyTruthy existing.package && pyTruthy node.package then node.package
      else existing.package
    specializes :=
      if node.specializes.isEmpty then existing.specializes
      else pyDedup (existing.specializes ++ node.specializes)
    type_of :=
      if node.type_of.isEmpty then existing.type_of
      else pyDedup (existing.type_of ++ node.type_of)
    modifiers :=
      if node.modifiers.isEmpty then existing.modifiers
      else pyDedup (existing.modifiers ++ node.modifiers)
    external := existing.external && node.external }

/-- `SysMLModel.add_node`: idempotent by name, merging with `mergeInto` when
the name is already present, appending otherwise. -/
def addNode (m : SysMLModel) (node : SysMLElement) : SysMLModel :=
  if hasNode m node.name then
    { m with nodes :=
        m.nodes.map (fun e => if e.name == node.name then mergeInto e node else e) }
  else
    { m with nodes := m.nodes ++ [node] }

/-- `SysMLModel.add_package`: idempotent append of a package record. -/
def addPackage (m : SysMLModel) (name : String) : SysMLModel :=
  if m.packages.any (fun p => p.name == name) then m
  else { m with packages := m.packages ++ [{ name := name }] }

/-- `SysMLModel.add_relation`: unconditional append. -/
def addRelation (m : SysMLModel) (r : SysMLRelation) : SysMLModel :=
  { m with relations := m.relations ++ [r] }

/-- The stub element synthesized by `ensure_relation_nodes` for a relation
endpoint that has no element record. -/
def externalStub (name : String) : SysMLElement :=
  { name := name, kind := "external", external := true }

/-- One endpoint step of `SysMLModel.ensure_relation_nodes`:
`if endpoint not in self._node_index: self.add_node(SysMLElement(...))`. -/
def ensureEndpoint (m : SysMLModel) (endpoint : String) : SysMLModel :=
  if hasNode m endpoint then m else addNode m (externalStub endpoint)

/-- `SysMLModel.ensure_relation_nodes`: for every relation, both endpoints
get an element record, synthesizing external stubs where missing. -/
def ensureRelationNodes (m : SysMLModel) : SysMLModel :=
  m.relations.foldl (fun acc r => ensureEndpoint (ensureEndpoint acc r.source) r.target) m

/-! ### Basic lemmas about the graph model -/

theorem mergeInto_name (e n : SysMLElement) : (mergeInto e n).name = e.name := rfl

theorem mergeInto_kind (e n : SysMLElement) : (mergeInto e n).kind = e.kind := rfl

theorem mergeInto_flavor (e n : SysMLElement) : (mergeInto e n).flavor = e.flavor := rfl

theorem mergeInto_external (e n : SysMLElement) :
    (mergeInto e n).external = (e.external && n.external) := rfl

theorem addNode_relations (m : SysMLModel) (n : SysMLElement) :
    (addNode m n).relations = m.relations := by
  unfold addNode; split <;> rfl

theorem list_find?_append_of_none {α} (p : α → Bool) :
    ∀ (l1 l2 : List α), l1.find? p = none → (l1 ++ l2).find? p = l2.find? p := by
  intro l1
  induction l1 with
  | nil => intro l2 _; rfl
  | cons a l ih =>
    intro l2 h
    by_cases ha : p a = true
    · rw [List.find?_cons_of_pos _ ha] at h; exact absurd h (by simp)
    · rw [List.find?_cons_of_neg _ ha] at h
      rw [List.cons_append, List.find?_cons_of_neg _ ha]
      exact ih l2 h

theorem list_find?_append_of_some {α} (p : α → Bool) :
    ∀ (l1 l2 : List α) (e : α), l1.find? p = some e → (l1 ++ l2).find? p = some e := by
  intro l1
  induction l1 with
  | nil => intro l2 e h; exact absurd h (by simp)
  | cons a l ih =>
    intro l2 e h
    by_cases ha : p a = true
    · rw [List.find?_cons_of_pos _ ha] at h
      rw [List.cons_append, List.find?_cons_of_pos _ ha]; exact h
    · rw [List.find?_cons_of_neg _ ha] at h
      rw [List.cons_append, List.find?_cons_of_neg _ ha]
      exact ih l2 e h

theorem find?_map_merge (n : SysMLElement) :
    ∀ (l : List SysMLElement) (e : SysMLElement),
      l.find? (fun x => x.name == n.name) = some e →
      (l.map (fun x => if x.name == n.name then mergeInto x n else x)).find?
          (fun x => x.name == n.name) = some (mergeInto e n) := by
  intro l
  induction l with
  | nil => intro e h; exact absurd h (by simp)
  | cons a l ih =>
    intro e h
    cases ha : (a.name == n.name) with
    | true =>
      simp only [List.find?_cons, ha] at h
      injection h with h; subst h
      have hfa : (if (a.name == n.name) = true then mergeInto a n else a) = mergeInto a n := by
        simp [ha]
      rw [List.map_cons, hfa]
      simp only [List.find?_cons, mergeInto_name, ha]
    | false =>
      simp only [List.find?_cons, ha] at h
      have hfa : (if (a.name == n.name) = true then mergeInto a n else a) = a := by
        simp [ha]
      rw [List.map_cons, hfa]
      simp only [List.find?_cons, ha]
      exact ih e h

theorem hasNode_false_iff (m : SysMLModel) (name : String) :
    hasNode m name = false ↔ findNode m name = none := by
  constructor
  · intro h
    rw [findNode, List.find?_eq_none]
    intro x hx hpx
    have : hasNode m name = true := by
      rw [hasNode, List.any_eq_true]; exact ⟨x, hx, hpx⟩
    rw [h] at this; exact absurd this (by simp)
  · intro h
    rw [findNode, List.find?_eq_none] at h
    by_cases hb : hasNode m name = true
    · rw [hasNode, List.any_eq_true] at hb
      obtain ⟨x, hx, hpx⟩ := hb
      exact absurd hpx (h x hx)
    · simpa using hb

theorem hasNode_true_of_find (m : SysMLModel) (name : String) (e : SysMLElement)
    (h : findNode m name = some e) : hasNode m name = true := by
  by_cases hb : hasNode m name = false
  · rw [(hasNode_false_iff m name).mp hb] at h; exact absurd h (by simp)
  · simpa using hb

/-- Looking up `n.name` after `add_node n`: the result is the merged record
when the name was present, and `n` itself when it was absent. -/
theorem findNode_addNode_self (m : SysMLModel) (n : SysMLElement) :
    findNode (addNode m n) n.name =
      some (match findNode m n.name with
            | some e => mergeInto e n
            | none => n) := by
  unfold addNode
  by_cases h : hasNode m n.name = true
  · rw [if_pos h]
    have hs : (findNode m n.name).isSome = true := by
      rcases he : findNode m n.name with _ | e
      · rw [← hasNode_false_iff] at he; rw [h] at he; exact absurd he (by simp)
      · rfl
    rcases he : findNode m n.name with _ | e
    · rw [he] at hs; exact absurd hs (by simp)
    · show (m.nodes.map _).find? _ = _
      rw [find?_map_merge n m.nodes e he]
  · have hf : hasNode m n.name = false := by simpa using h
    rw [if_neg h]
    have hnone : findNode m n.name = none := (hasNode_false_iff m n.name).mp hf
    rw [hnone]
    show (m.nodes ++ [n]).find? _ = _
    rw [list_find?_append_of_none _ m.nodes [n] hnone]
    simp [List.find?]

/-- Looking up any other name is unaffected by `add_node n`. -/
theorem findNode_addNode_other (m : SysMLModel) (n : SysMLElement) (name : String)
    (h : name ≠ n.name) :
    findNode (addNode m n) name = findNode m name := by
  unfold addNode
  split
  · show (m.nodes.map _).find? _ = m.nodes.find? _
    induction m.nodes with
    | nil => rfl
    | cons a l ih =>
      have hfname : (if (a.name == n.name) = true then mergeInto a n else a).name = a.name := by
        split <;> simp [mergeInto_name]
      cases ha : (a.name == name) with
      | true =>
        have hane : (a.name == n.name) = false := by
          have haeq : a.name = name := by simpa using ha
          subst haeq
          simpa using (fun hh => h hh)
        have hfa : (if (a.name == n.name) = true then mergeInto a n else a) = a := by
          simp [hane]
        simp only [List.map_cons, hfa, List.find?_cons, ha]
      | false =>
        simp only [List.map_cons, List.find?_cons, hfname, ha]
        exact ih
  · show (m.nodes ++ [n]).find? _ = m.nodes.find? _
    rcases he : m.nodes.find? (fun e => e.name == name) with _ | e
    · rw [list_find?_append_of_none _ m.nodes [n] he, he]
      have hnn : (n.name == name) = false := by
        simpa using (fun hh : n.name = name => h hh.symm)
      simp [List.find?, hnn]
    · rw [list_find?_append_of_some _ m.nodes [n] e he, he]

theorem findNode_addNode_isSome (m : SysMLModel) (n : SysMLElement) (name : String)
    (h : (findNode m name).isSome = true) :
    (findNode (addNode m n) name).isSome = true := by
  by_cases hn : name = n.name
  · subst hn; rw [findNode_addNode_self]; rfl
  · rw [findNode_addNode_other m n name hn]; exact h

/-! ### Lemmas about `ensure_relation_nodes` -/

theorem ensureEndpoint_relations (m : SysMLModel) (ep : String) :
    (ensureEndpoint m ep).relations = m.relations := by
  unfold ensureEndpoint
  split
  · rfl
  · exact addNode_relations m (externalStub ep)

theorem ensureEndpoint_isSome_self (m : SysMLModel) (ep : String) :
    (findNode (ensureEndpoint m ep) ep).isSome = true := by
  unfold ensureEndpoint
  split
  · next hh =>
    rcases he : findNode m ep with _ | e
    · rw [← hasNode_false_iff] at he; rw [hh] at he; exact absurd he (by simp)
    · rfl
  · have : findNode (addNode m (externalStub ep)) (externalStub ep).name =
        some (match findNode m (externalStub ep).name with
              | some e => mergeInto e (externalStub ep)
              | none => externalStub ep) := findNode_addNode_self m (externalStub ep)
    rw [show (externalStub ep).name = ep from rfl] at this
    rw [this]; rfl

theorem ensureEndpoint_isSome (m : SysMLModel) (ep name : String)
    (h : (findNode m name).isSome = true) :
    (findNode (ensureEndpoint m ep) name).isSome = true := by
  unfold ensureEndpoint
  split
  · exact h
  · exact findNode_addNode_isSome m (externalStub ep) name h

theorem ensureEndpoint_preserves (m : SysMLModel) (ep name : String) (e : SysMLElement)
    (h : findNode m name = some e) :
    findNode (ensureEndpoint m ep) name = some e := by
  unfold ensureEndpoint
  split
  · exact h
  · next hh =>
    have hne : name ≠ (externalStub ep).name := by
      intro hc
      have hf : hasNode m ep = false := by simpa using hh
      have hn : findNode m ep = none := (hasNode_false_iff m ep).mp hf
      rw [show (externalStub ep).name = ep from rfl] at hc
      rw [hc, hn] at h
      exact absurd h (by simp)
    rw [findNode_addNode_other m (externalStub ep) name hne]
    exact h

theorem ensureEndpoint_nodes (m : SysMLModel) (ep : String) :
    (ensureEndpoint m ep).nodes = m.nodes ∨
      (ensureEndpoint m ep).nodes = m.nodes ++ [externalStub ep] := by
  unfold ensureEndpoint
  split
  · exact Or.inl rfl
  · next hh =>
    unfold addNode
    rw [show (externalStub ep).name = ep from rfl, if_neg hh]
    exact Or.inr rfl

theorem ensureEndpoint_new (m : SysMLModel) (ep name : String) (e : SysMLElement)
    (h0 : findNode m name = none) (h : findNode (ensureEndpoint m ep) name = some e) :
    e = externalStub name := by
  unfold ensureEndpoint at h
  split at h
  · rw [h0] at h; exact absurd h (by simp)
  · by_cases hn : name = ep
    · subst hn
      have := findNode_addNode_self m (externalStub name)
      rw [show (externalStub name).name = name from rfl, h0] at this
      rw [this] at h
      injection h with h
      exact h.symm
    · rw [findNode_addNode_other m (externalStub ep) name (by
        intro hc; exact hn (by simpa using hc))] at h
      rw [h0] at h; exact absurd h (by simp)

/-- The per-relation step of `ensure_relation_nodes`. -/
def ensureStep (acc : SysMLModel) (r : SysMLRelation) : SysMLModel :=
  ensureEndpoint (ensureEndpoint acc r.source) r.target

theorem ensureRelationNodes_eq_foldl (m : SysMLModel) :
    ensureRelationNodes m = m.relations.foldl ensureStep m := rfl

theorem foldl_ensure_relations :
    ∀ (rs : List SysMLRelation) (acc : SysMLModel),
      (rs.foldl ensureStep acc).relations = acc.relations := by
  intro rs
  induction rs with
  | nil => intro acc; rfl
  | cons r rs ih =>
    intro acc
    rw [List.foldl_cons, ih]
    unfold ensureStep
    rw [ensureEndpoint_relations, ensureEndpoint_relations]

theorem foldl_ensure_isSome :
    ∀ (rs : List SysMLRelation) (acc : SysMLModel) (name : String),
      (findNode acc name).isSome = true →
      (findNode (rs.foldl ensureStep acc) name).isSome = true := by
  intro rs
  induction rs with
  | nil => intro acc name h; exact h
  | cons r rs ih =>
    intro acc name h
    rw [List.foldl_cons]
    exact ih _ name (ensureEndpoint_isSome _ _ _ (ensureEndpoint_isSome _ _ _ h))

theorem foldl_ensure_preserves :
    ∀ (rs : List SysMLRelation) (acc : SysMLModel) (name : String) (e : SysMLElement),
      findNode acc name = some e →
      findNode (rs.foldl ensureStep acc) name = some e := by
  intro rs
  induction rs with
  | nil => intro acc name e h; exact h
  | cons r rs ih =>
    intro acc name e h
    rw [List.foldl_cons]
    exact ih _ name e (ensureEndpoint_preserves _ _ _ _ (ensureEndpoint_preserves _ _ _ _ h))

theorem foldl_ensure_endpoints :
    ∀ (rs : List SysMLRelation) (acc : SysMLModel) (r : SysMLRelation), r ∈ rs →
      (findNode (rs.foldl ensureStep acc) r.source).isSome = true ∧
      (findNode (rs.foldl ensureStep acc) r.target).isSome = true := by
  intro rs
  induction rs with
  | nil => intro acc r h; exact absurd h (by simp)
  | cons r0 rs ih =>
    intro acc r h
    rw [List.foldl_cons]
    rcases List.mem_cons.mp h with h0 | hmem
    · subst h0
      constructor
      · exact foldl_ensure_isSome rs _ r.source
          (ensureEndpoint_isSome _ _ _ (ensureEndpoint_isSome_self acc r.source))
      · exact foldl_ensure_isSome rs _ r.target
          (ensureEndpoint_isSome_self (ensureEndpoint acc r.source) r.target)
    · exact ih _ r hmem

theorem ensureEndpoint_nodes_growth (m : SysMLModel) (ep : String) (e : SysMLElement)
    (h : e ∈ (ensureEndpoint m ep).nodes) :
    e ∈ m.nodes ∨ e = externalStub ep := by
  rcases ensureEndpoint_nodes m ep with hn | hn
  · rw [hn] at h; exact Or.inl h
  · rw [hn] at h
    rcases List.mem_append.mp h with h1 | h2
    · exact Or.inl h1
    · exact Or.inr (by simpa using h2)

theorem foldl_ensure_nodes_growth :
    ∀ (rs : List SysMLRelation) (acc : SysMLModel) (e : SysMLElement),
      e ∈ (rs.foldl ensureStep acc).nodes →
      e ∈ acc.nodes ∨ (e.kind = "external" ∧ e.external = true) := by
  intro rs
  induction rs with
  | nil => intro acc e h; exact Or.inl h
  | cons r rs ih =>
    intro acc e h
    rw [List.foldl_cons] at h
    rcases ih _ e h with h1 | h2
    · unfold ensureStep at h1
      rcases ensureEndpoint_nodes_growth _ _ _ h1 with h3 | h3
      · rcases ensureEndpoint_nodes_growth _ _ _ h3 with h4 | h4
        · exact Or.inl h4
        · exact Or.inr (by rw [h4]; exact ⟨rfl, rfl⟩)
      · exact Or.inr (by rw [h3]; exact ⟨rfl, rfl⟩)
    · exact Or.inr h2

theorem foldl_ensure_stub :
    ∀ (rs : List SysMLRelation) (acc : SysMLModel) (name : String),
      (findNode acc name = none ∨ findNode acc name = some (externalStub name)) →
      (findNode (rs.foldl ensureStep acc) name = none ∨
        findNode (rs.foldl ensureStep acc) name = some (externalStub name)) := by
  intro rs
  induction rs with
  | nil => intro acc name h; exact h
  | cons r rs ih =>
    intro acc name h
    rw [List.foldl_cons]
    apply ih
    have step1 : findNode (ensureEndpoint acc r.source) name = none ∨
        findNode (ensureEndpoint acc r.source) name = some (externalStub name) := by
      rcases h with h | h
      · rcases hv : findNode (ensureEndpoint acc r.source) name with _ | e
        · exact Or.inl rfl
        · exact Or.inr (by rw [ensureEndpoint_new acc r.source name e h hv])
      · exact Or.inr (ensureEndpoint_preserves _ _ _ _ h)
    rcases step1 with h1 | h1
    · rcases hv : findNode (ensureStep acc r) name with _ | e
      · exact Or.inl rfl
      · exact Or.inr (by rw [ensureEndpoint_new _ r.target name e h1 hv])
    · exact Or.inr (ensureEndpoint_preserves _ _ _ _ h1)

/-! ### Lemmas about `pyDedup` and fresh double insertion -/

theorem pyDedupAux_eq_self :
    ∀ (l seen : List String), l.Nodup → (∀ a ∈ l, a ∉ seen) → pyDedupAux seen l = l := by
  intro l
  induction l with
  | nil => intro seen _ _; rfl
  | cons a l ih =>
    intro seen hnd hni
    have hmem : a ∉ seen := hni a (by simp)
    unfold pyDedupAux
    rw [if_neg hmem]
    congr 1
    apply ih
    · exact (List.nodup_cons.mp hnd).2
    · intro b hb
      have hba : b ≠ a := by
        intro hc; subst hc
        exact (List.nodup_cons.mp hnd).1 hb
      simpa [hba] using hni b (by simp [hb])

theorem pyDedup_eq_self (l : List String) (h : l.Nodup) : pyDedup l = l :=
  pyDedupAux_eq_self l [] h (by simp)

theorem merge_list_formula (u v : List String) (hu : u.Nodup) :
    (if v.isEmpty then u else pyDedup (u ++ v)) = pyDedup (u ++ v) := by
  cases v with
  | nil => simp [pyDedup_eq_self u hu]
  | cons a v => rfl

theorem list_map_id_of {α} (f : α → α) :
    ∀ l : List α, (∀ x ∈ l, f x = x) → l.map f = l := by
  intro l
  induction l with
  | nil => intro _; rfl
  | cons a l ih =>
    intro h
    rw [List.map_cons, h a (by simp), ih (fun x hx => h x (by simp [hx]))]

theorem list_filter_nil_of {α} (p : α → Bool) :
    ∀ l : List α, (∀ x ∈ l, p x = false) → l.filter p = [] := by
  intro l
  induction l with
  | nil => intro _; rfl
  | cons a l ih =>
    intro h
    rw [List.filter_cons, h a (by simp), ih (fun x hx => h x (by simp [hx]))]
    simp

theorem names_false_of_none (m : SysMLModel) (name : String)
    (habs : findNode m name = none) : ∀ x ∈ m.nodes, (x.name == name) = false := by
  rw [findNode, List.find?_eq_none] at habs
  intro x hx
  simpa using habs x hx

theorem addNode_nodes_append (m : SysMLModel) (a : SysMLElement)
    (h : hasNode m a.name = false) : (addNode m a).nodes = m.nodes ++ [a] := by
  unfold addNode
  rw [h]
  simp

theorem addNode_nodes_merge (m : SysMLModel) (b : SysMLElement)
    (h : hasNode m b.name = true) :
    (addNode m b).nodes = m.nodes.map (fun e => if e.name == b.name then mergeInto e b else e) := by
  unfold addNode
  rw [h]
  simp

/-- Adding two records with the same, previously unused, name: the second is
merged into the first, and no other node changes. -/
theorem addNode_two_fresh (m : SysMLModel) (a b : SysMLElement) (name : String)
    (ha : a.name = name) (hb : b.name = name) (habs : findNode m name = none) :
    (addNode (addNode m a) b).nodes = m.nodes ++ [mergeInto a b] ∧
    findNode (addNode (addNode m a) b) name = some (mergeInto a b) := by
  have hall := names_false_of_none m name habs
  have hnoA : hasNode m a.name = false := by
    rw [ha]; exact (hasNode_false_iff m name).mpr habs
  have e1nodes : (addNode m a).nodes = m.nodes ++ [a] := addNode_nodes_append m a hnoA
  have hfind1 : findNode (addNode m a) name = some a := by
    have h0 := findNode_addNode_self m a
    rw [ha, habs] at h0
    simpa using h0
  have hhas1 : hasNode (addNode m a) b.name = true := by
    rw [hb]; exact hasNode_true_of_find _ _ _ hfind1
  have hfind2 : findNode (addNode (addNode m a) b) name = some (mergeInto a b) := by
    have h0 := findNode_addNode_self (addNode m a) b
    rw [hb, hfind1] at h0
    simpa using h0
  refine ⟨?_, hfind2⟩
  rw [addNode_nodes_merge _ _ hhas1, e1nodes, List.map_append]
  congr 1
  · apply list_map_id_of
    intro x hx
    have hx0 : (x.name == b.name) = false := by rw [hb]; exact hall x hx
    simp [hx0]
  · have hab : (a.name == b.name) = true := by rw [ha, hb]; simp
    rw [List.map_cons, List.map_nil, if_pos hab]

theorem addNode_explicit_external (m : SysMLModel) (expl : SysMLElement)
    (hext : expl.external = false) :
    ∀ e, findNode (addNode m expl) expl.name = some e → e.external = false := by
  intro e h
  rw [findNode_addNode_self] at h
  rcases hv : findNode m expl.name with _ | e0 <;> rw [hv] at h <;> injection h with h <;>
    subst h
  · exact hext
  · rw [mergeInto_external, hext, Bool.and_false]

/-! ### Claim C3 -/

/-- C3 (confirmed): an element record whose name was only introduced as a
relation endpoint (finalization stub) has `external = true`; adding an
explicit non-external element with the same name makes `external` false
whether the explicit definition comes before or after the stub; and a merge
never turns `external` from false back to true. -/
theorem claim_C3_theorem (m : SysMLModel) (name : String) (expl : SysMLElement)
    (hname : expl.name = name) (hext : expl.external = false) :
    (findNode m name = none →
      ∀ r ∈ m.relations, (r.source = name ∨ r.target = name) →
      ∃ e, findNode (ensureRelationNodes m) name = some e ∧ e.external = true) ∧
    (∀ e, findNode (addNode (ensureRelationNodes m) expl) name = some e →
      e.external = false) ∧
    (∀ e, findNode (ensureRelationNodes (addNode m expl)) name = some e →
      e.external = false) ∧
    (∀ n e e2, findNode m name = some e → e.external = false →
      findNode (addNode m n) name = some e2 → e2.external = false) := by
  refine ⟨?_, ?_, ?_, ?_⟩
  · intro habs r hr hend
    have hsome : (findNode (ensureRelationNodes m) name).isSome = true := by
      rcases hend with hs | ht
      · have := (foldl_ensure_endpoints m.relations m r hr).1
        rw [hs] at this
        exact this
      · have := (foldl_ensure_endpoints m.relations m r hr).2
        rw [ht] at this
        exact this
    rcases hv : findNode (ensureRelationNodes m) name with _ | e
    · rw [hv] at hsome; exact absurd hsome (by simp)
    · refine ⟨e, rfl, ?_⟩
      have := foldl_ensure_stub m.relations m name (Or.inl habs)
      rw [ensureRelationNodes_eq_foldl] at hv
      rcases this with h0 | h0
      · rw [h0] at hv; exact absurd hv (by simp)
      · rw [h0] at hv
        injection hv with hv
        rw [← hv]; rfl
  · intro e h
    rw [← hname] at h
    exact addNode_explicit_external _ expl hext e h
  · intro e h
    have hsome := findNode_addNode_self m expl
    rw [hname] at hsome
    set e1 := (match findNode m name with
               | some e0 => mergeInto e0 expl
               | none => expl) with he1
    have hext1 : e1.external = false := by
      rw [he1]
      rcases hv : findNode m name with _ | e0
      · exact hext
      · rw [mergeInto_external, hext, Bool.and_false]
    have hpres := foldl_ensure_preserves (addNode m expl).relations (addNode m expl)
      name e1 hsome
    rw [ensureRelationNodes_eq_foldl] at h
    rw [hpres] at h
    injection h with h
    rw [← h]
    exact hext1
  · intro n e e2 hfound hfalse hafter
    by_cases hn : name = n.name
    · subst hn
      rw [findNode_addNode_self, hfound] at hafter
      injection hafter with hafter
      rw [← hafter, mergeInto_external, hfalse, Bool.false_and]
    · rw [findNode_addNode_other m n name hn, hfound] at hafter
      injection hafter with hafter
      rw [← hafter]
      exact hfalse

theorem claim_C3_witness :
    (∃ e, findNode (ensureRelationNodes
        { relations := [⟨"X", "Y", "connects", some "connects"⟩] }) "X" = some e ∧
      e.external = true) ∧
    (∀ e, findNode (addNode (ensureRelationNodes
        { relations := [⟨"X", "Y", "connects", some "connects"⟩] })
        ⟨"X", "part", none, none, [], [], [], false⟩) "X" = some e →
      e.external = false) := by
  have h := claim_C3_theorem { relations := [⟨"X", "Y", "connects", some "connects"⟩] }
    "X" ⟨"X", "part", none, none, [], [], [], false⟩ rfl rfl
  exact ⟨h.1 rfl ⟨"X", "Y", "connects", some "connects"⟩ (by simp) (Or.inl rfl), h.2.1⟩

/-! ### Claim C4 -/

/-- C4 (confirmed): after `ensure_relation_nodes` every relation endpoint has
an element record; finalization never changes the relation list, and any node
it adds is an external stub (kind `"external"`, `external = true`). -/
theorem claim_C4_theorem (m : SysMLModel) :
    (ensureRelationNodes m).relations = m.relations ∧
    (∀ r ∈ (ensureRelationNodes m).relations,
      (findNode (ensureRelationNodes m) r.source).isSome = true ∧
      (findNode (ensureRelationNodes m) r.target).isSome = true) ∧
    (∀ e ∈ (ensureRelationNodes m).nodes,
      e ∈ m.nodes ∨ (e.kind = "external" ∧ e.external = true)) := by
  refine ⟨foldl_ensure_relations m.relations m, ?_, ?_⟩
  · intro r hr
    rw [ensureRelationNodes_eq_foldl, foldl_ensure_relations m.relations m] at hr
    exact foldl_ensure_endpoints m.relations m r hr
  · intro e he
    exact foldl_ensure_nodes_growth m.relations m e he

theorem claim_C4_witness :
    (ensureRelationNodes ({ relations := [⟨"a", "b", "flows", some "flows"⟩] } :
      SysMLModel)).relations = [⟨"a", "b", "flows", some "flows"⟩] ∧
    (findNode (ensureRelationNodes ({ relations := [⟨"a", "b", "flows", some "flows"⟩] } :
      SysMLModel)) "a").isSome = true ∧
    (findNode (ensureRelationNodes ({ relations := [⟨"a", "b", "flows", some "flows"⟩] } :
      SysMLModel)) "b").isSome = true := by
  have h := claim_C4_theorem { relations := [⟨"a", "b", "flows", some "flows"⟩] }
  have h2 := h.2.1 ⟨"a", "b", "flows", some "flows"⟩ (by rw [h.1]; simp)
  exact ⟨h.1, h2.1, h2.2⟩

/-! ### Claim C5 -/

/-- C5 (corrected): the claim fails when a record carries a list that itself
contains duplicates, because `add_node` leaves the stored list untouched when
the incoming list is empty.  Here record 1 has `type_of = ["B", "B"]` and
record 2 has `type_of = []`: the merged record keeps `["B", "B"]`, which is
not the duplicate-free union `["B"]`. -/
theorem claim_C5_counterexample :
    (findNode (addNode (addNode ({ } : SysMLModel)
        ⟨"E", "part", none, some "P", ["B", "B"], [], [], false⟩)
        ⟨"E", "part", none, none, [], [], [], false⟩) "E").map (fun e => e.type_of) =
      some ["B", "B"] ∧
    pyDedup (["B", "B"] ++ ([] : List String)) = ["B"] ∧
    (["B", "B"] : List String) ≠ pyDedup (["B", "B"] ++ ([] : List String)) := by
  exact ⟨by decide, by decide, by decide⟩

/-- C5 (corrected, amended): provided each record's reference lists are
duplicate-free (as the parser guarantees through `_unique`), adding two
records with the same name — one carrying a non-empty package and one
carrying none, in either order, to a model without that name — yields exactly
one element record, whose package equals the non-empty package value in both
orders, and whose `type_of`/`specializes`/`modifiers` lists are the
duplicate-free union of both records' lists in first-seen order. -/
theorem claim_C5_theorem (m : SysMLModel) (name p k1 k2 : String)
    (f1 f2 : Option String) (l1 l2 s1 s2 mo1 mo2 : List String) (x1 x2 : Bool)
    (n1 n2 : SysMLElement)
    (hn1 : n1 = ⟨name, k1, f1, some p, l1, s1, mo1, x1⟩)
    (hn2 : n2 = ⟨name, k2, f2, none, l2, s2, mo2, x2⟩)
    (habs : findNode m name = none) (hp : p ≠ "")
    (h1 : l1.Nodup) (h2 : l2.Nodup) (h3 : s1.Nodup) (h4 : s2.Nodup)
    (h5 : mo1.Nodup) (h6 : mo2.Nodup) :
    (((addNode (addNode m n1) n2).nodes.filter (fun e => e.name == name)).length = 1 ∧
      ((addNode (addNode m n2) n1).nodes.filter (fun e => e.name == name)).length = 1) ∧
    (∃ e, findNode (addNode (addNode m n1) n2) name = some e ∧
      e.package = some p ∧ e.type_of = pyDedup (l1 ++ l2) ∧
      e.specializes = pyDedup (s1 ++ s2) ∧ e.modifiers = pyDedup (mo1 ++ mo2)) ∧
    (∃ e, findNode (addNode (addNode m n2) n1) name = some e ∧
      e.package = some p ∧ e.type_of = pyDedup (l2 ++ l1) ∧
      e.specializes = pyDedup (s2 ++ s1) ∧ e.modifiers = pyDedup (mo2 ++ mo1)) := by
  subst hn1 hn2
  have hall := names_false_of_none m name habs
  obtain ⟨hnA, hfA⟩ := addNode_two_fresh m
    ⟨name, k1, f1, some p, l1, s1, mo1, x1⟩ ⟨name, k2, f2, none, l2, s2, mo2, x2⟩
    name rfl rfl habs
  obtain ⟨hnB, hfB⟩ := addNode_two_fresh m
    ⟨name, k2, f2, none, l2, s2, mo2, x2⟩ ⟨name, k1, f1, some p, l1, s1, mo1, x1⟩
    name rfl rfl habs
  have hpfalse : (p == "") = false := by
    cases hc : p == "" with
    | true => exact absurd (by simpa using hc) hp
    | false => rfl
  have count : ∀ (merged : SysMLElement), merged.name = name →
      ((m.nodes ++ [merged]).filter (fun e => e.name == name)).length = 1 := by
    intro merged hm
    rw [List.filter_append, list_filter_nil_of _ m.nodes hall]
    simp [hm]
  refine ⟨⟨?_, ?_⟩, ⟨_, hfA, ?_, ?_, ?_, ?_⟩, ⟨_, hfB, ?_, ?_, ?_, ?_⟩⟩
  · rw [hnA]; exact count _ rfl
  · rw [hnB]; exact count _ rfl
  · show (if !pyTruthy (some p) && pyTruthy none then (none : Option String) else some p) =
      some p
    simp [pyTruthy]
  · exact merge_list_formula l1 l2 h1
  · exact merge_list_formula s1 s2 h3
  · exact merge_list_formula mo1 mo2 h5
  · show (if !pyTruthy none && pyTruthy (some p) then some p else (none : Option String)) =
      some p
    simp [pyTruthy, hpfalse]
  · exact merge_list_formula l2 l1 h2
  · exact merge_list_formula s2 s1 h4
  · exact merge_list_formula mo2 mo1 h6

theorem claim_C5_witness :
    ((addNode (addNode ({ } : SysMLModel)
        ⟨"E", "part", none, some "P", ["B1"], ["S"], [], false⟩)
        ⟨"E", "item", some "usage", none, ["B1", "B2"], [], ["individual"], true⟩).nodes.filter
        (fun e => e.name == "E")).length = 1 ∧
    (∃ e, findNode (addNode (addNode ({ } : SysMLModel)
        ⟨"E", "item", some "usage", none, ["B1", "B2"], [], ["individual"], true⟩)
        ⟨"E", "part", none, some "P", ["B1"], ["S"], [], false⟩) "E" = some e ∧
      e.package = some "P" ∧ e.type_of = pyDedup (["B1", "B2"] ++ ["B1"]) ∧
      e.specializes = pyDedup (([] : List String) ++ ["S"]) ∧
      e.modifiers = pyDedup (["individual"] ++ [])) := by
  have h := claim_C5_theorem ({ } : SysMLModel) "E" "P" "part" "item" none (some "usage")
    ["B1"] ["B1", "B2"] ["S"] [] [] ["individual"] false true _ _ rfl rfl rfl
    (by decide) (by decide) (by decide) (by decide) (by decide) (by decide) (by decide)
  exact ⟨h.1.1, h.2.2⟩

/-! ### Claim C10 -/

/-- C10 (confirmed): merging a later record into an existing one never changes
the existing record's `kind` or `flavor`: the first-added record's kind and
flavor are kept. -/
theorem claim_C10_theorem (m : SysMLModel) (n e : SysMLElement)
    (h : findNode m n.name = some e) :
    ∃ e2, findNode (addNode m n) n.name = some e2 ∧
      e2.kind = e.kind ∧ e2.flavor = e.flavor := by
  refine ⟨mergeInto e n, ?_, mergeInto_kind e n, mergeInto_flavor e n⟩
  rw [findNode_addNode_self, h]

theorem claim_C10_witness :
    ∃ e2, findNode (addNode ({ nodes := [⟨"N", "part", some "def", none, [], [], [], false⟩] } :
        SysMLModel) ⟨"N", "action", some "usage", none, [], [], [], true⟩) "N" = some e2 ∧
      e2.kind = "part" ∧ e2.flavor = some "def" :=
  claim_C10_theorem { nodes := [⟨"N", "part", some "def", none, [], [], [], false⟩] }
    ⟨"N", "action", some "usage", none, [], [], [], true⟩
    ⟨"N", "part", some "def", none, [], [], [], false⟩ (by decide)

/-! ### Python string helpers used by the parser (`parser.py`) -/

/-- The apostrophe character (used instead of a literal to keep string
handling uniform). -/
def aposChar : Char := Char.ofNat 39

/-- ASCII whitespace as used by Python `str.strip()` and by the regex class
`\s` (space, tab, newline, carriage return, vertical tab, form feed).  The
texts handled in this development are ASCII. -/
def pyWsChar (c : Char) : Bool :=
  c == ' ' || c == '\t' || c == '\n' || c == '\r' || c == '\x0b' || c == '\x0c'

/-- `str.strip(chars)`: remove the given characters from both ends. -/
def stripCharsBoth (cset : List Char) (s : String) : String :=
  String.mk (((s.toList.dropWhile (fun c => cset.contains c)).reverse.dropWhile
    (fun c => cset.contains c)).reverse)

/-- `str.strip()` with no argument: strip whitespace from both ends. -/
def pyStrip (s : String) : String :=
  String.mk (((s.toList.dropWhile pyWsChar).reverse.dropWhile pyWsChar).reverse)

/-- `str.lower()` (ASCII). -/
def pyLower (s : String) : String := String.mk (s.toList.map Char.toLower)

/-- Python `html.unescape`, modelled for the entities of the characters that
`html.escape` produces; any other text is passed through unchanged (the
repository's inputs contain no other entities). -/
def htmlUnescapeList : List Char → List Char
  | '&' :: 'a' :: 'm' :: 'p' :: ';' :: rest => '&' :: htmlUnescapeList rest
  | '&' :: 'l' :: 't' :: ';' :: rest => '<' :: htmlUnescapeList rest
  | '&' :: 'g' :: 't' :: ';' :: rest => '>' :: htmlUnescapeList rest
  | '&' :: 'q' :: 'u' :: 'o' :: 't' :: ';' :: rest => '"' :: htmlUnescapeList rest
  | '&' :: 'a' :: 'p' :: 'o' :: 's' :: ';' :: rest => aposChar :: htmlUnescapeList rest
  | '&' :: '#' :: '3' :: '9' :: ';' :: rest => aposChar :: htmlUnescapeList rest
  | '&' :: '#' :: 'x' :: '2' :: '7' :: ';' :: rest => aposChar :: htmlUnescapeList rest
  | c :: rest => c :: htmlUnescapeList rest
  | [] => []

/-- `SysMLParser._clean_identifier`: strip surrounding punctuation, decode
HTML entities, strip surrounding quotes. -/
def cleanIdentifier (token : String) : String :=
  let cleaned := stripCharsBoth [' ', ',', ';', '\x7b', '\x7d'] token
  stripCharsBoth [aposChar, '"'] (String.mk (htmlUnescapeList cleaned.toList))

/-- The structural keywords that stop identifier collection in
`SysMLParser._collect_identifiers`. -/
def structuralKeywords : List String := ["\x7b", "\x7d", "connect", "from", "to", "and"]

/-- `SysMLParser._collect_identifiers`: clean each token, skip tokens that
clean to the empty string, stop (without inclusion) at the first cleaned
token that is a structural keyword. -/
def collectIdentifiers : List String → List String
  | [] => []
  | t :: rest =>
    let cleaned := cleanIdentifier t
    if cleaned = "" then collectIdentifiers rest
    else if cleaned ∈ structuralKeywords then []
    else cleaned :: collectIdentifiers rest

/-- `SysMLParser._unique`: drop empty strings, then deduplicate keeping the
first occurrence. -/
def pyUnique (values : List String) : List String :=
  pyDedup (values.filter (fun v => !(v == "")))

/-- The classifier scan in `SysMLParser._parse_definition`: find the first
`":"`, `":>"` or `":>>"` token and collect the identifiers after it into
`(type_of, specializes)`. -/
def scanClassifier : List String → List String × List String
  | [] => ([], [])
  | t :: rest =>
    let lower := pyLower t
    if lower = ":" then (collectIdentifiers rest, [])
    else if lower = ":>" ∨ lower = ":>>" then ([], collectIdentifiers rest)
    else scanClassifier rest

/-- `SysMLParser._parse_definition`.  Returns `none` where the Python code
returns `False` (all such paths leave the model untouched), and
`some model` with the updated model where it returns `True`. -/
def parseDefinition (tokens : List String) (pkg : Option String) (m : SysMLModel) :
    Option SysMLModel :=
  match tokens with
  | [] => none
  | t0 :: rest0 =>
    let kind0 := pyLower t0
    let step1 : List String × String × List String :=
      match rest0 with
      | t1 :: r1 =>
        if kind0 = "use" ∧ pyLower t1 = "case" then ([], "use case", r1)
        else if kind0 = "value" ∧ pyLower t1 = "type" then ([], "value type", r1)
        else if kind0 = "individual" then (["individual"], pyLower t1, r1)
        else ([], kind0, rest0)
      | [] => ([], kind0, [])
    match step1 with
    | (modifiers, kindToken, rest1) =>
      if kindToken = "package" then none
      else
        let step2 : Option String × List String :=
          match rest1 with
          | t :: r =>
            if pyLower t = "def" ∨ pyLower t = "usage" then (some (pyLower t), r)
            else (none, rest1)
          | [] => (none, [])
        match step2 with
        | (flavor, rest2) =>
          match rest2 with
          | [] => none
          | tn :: rest3 =>
            let name := cleanIdentifier tn
            if name = "" then none
            else
              let scanned := scanClassifier rest3
              let node : SysMLElement :=
                { name := name, kind := kindToken, flavor := flavor, package := pkg,
                  type_of := pyUnique scanned.1, specializes := pyUnique scanned.2,
                  modifiers := modifiers, external := false }
              let m1 := addNode m node
              let m2 := node.specializes.foldl (fun acc parent =>
                addRelation acc ⟨node.name, parent, "specializes", some "specializes"⟩) m1
              let m3 := node.type_of.foldl (fun acc tgt =>
                addRelation acc ⟨node.name, tgt, "typed",
                  some (if node.flavor = some "def" then "typed by" else "uses")⟩) m2
              some m3

/-! ### Tokenizer: `shlex.split(line, posix=True)` -/

/-- Lexer state of the shell-style tokenizer. -/
inductive ShState where
  | plain
  | inSingle
  | inDouble
deriving Repr, DecidableEq

/-- The whitespace set of `shlex` (`shlex.whitespace = " \t\r\n"`). -/
def shlexWsChar (c : Char) : Bool :=
  c == ' ' || c == '\t' || c == '\r' || c == '\n'

/-- Core loop of `shlex.split(_, posix=True)` in whitespace-split mode:
whitespace separates tokens; single quotes are literal; inside double quotes
a backslash escapes only `"` and `\` (and is kept otherwise); outside quotes
a backslash escapes the next character.  `none` models the `ValueError`
raised on an unterminated quote or trailing escape.  The accumulating token
`cur` is kept reversed. -/
def shlexAux : ShState → Bool → List Char → List Char → Option (List String)
  | .plain, started, cur, [] =>
    some (if started then [String.mk cur.reverse] else [])
  | .inSingle, _, _, [] => none
  | .inDouble, _, _, [] => none
  | .plain, started, cur, c :: rest =>
    if shlexWsChar c then
      if started then
        (shlexAux .plain false [] rest).map (fun ts => String.mk cur.reverse :: ts)
      else shlexAux .plain false [] rest
    else if c = aposChar then shlexAux .inSingle true cur rest
    else if c = '"' then shlexAux .inDouble true cur rest
    else if c = '\\' then
      match rest with
      | [] => none
      | d :: rest2 => shlexAux .plain true (d :: cur) rest2
    else shlexAux .plain true (c :: cur) rest
  | .inSingle, started, cur, c :: rest =>
    if c = aposChar then shlexAux .plain started cur rest
    else shlexAux .inSingle started (c :: cur) rest
  | .inDouble, started, cur, c :: rest =>
    if c = '"' then shlexAux .plain started cur rest
    else if c = '\\' then
      match rest with
      | [] => none
      | d :: rest2 =>
        if d = '"' ∨ d = '\\' then shlexAux .inDouble started (d :: cur) rest2
        else shlexAux .inDouble started (d :: '\\' :: cur) rest2
    else shlexAux .inDouble started (c :: cur) rest

/-- `shlex.split(s, posix=True)`; `none` models `ValueError`. -/
def pyShlexSplit (s : String) : Option (List String) :=
  shlexAux .plain false [] s.toList

/-- `SysMLParser._tokenize`: `shlex.split`, with `ValueError` mapped to the
empty token list. -/
def tokenizeLine (line : String) : List String :=
  (pyShlexSplit line).getD []

/-! ### Relation regexes (`CONNECT_RE`, `FLOW_RE`, `ROLE_RE`) -/

/-- Case-insensitive literal match: drop the (lower-case) literal from the
front of the text, if present. -/
def dropLitCI : List Char → List Char → Option (List Char)
  | [], rest => some rest
  | _ :: _, [] => none
  | a :: ls, c :: rest => if c.toLower = a then dropLitCI ls rest else none

/-- `\s+<dst>` continuation after a literal keyword, where the destination
class is `[^\s;]+`: used for the tail of `CONNECT_RE` and `FLOW_RE`. -/
def matchTailKw (kw : String) (r : List Char) : Option (String × List Char) :=
  match dropLitCI kw.toList r with
  | none => none
  | some r4 =>
    let ws2 := r4.span pyWsChar
    if ws2.1.isEmpty then none
    else
      let dst := ws2.2.span (fun c => !(pyWsChar c || c == ';'))
      if dst.1.isEmpty then none else some (String.mk dst.1, dst.2)

/-- One attempted match of `CONNECT_RE`
(`connect\s+(?P<src>[^\s]+)\s+(?:to|with)\s+(?P<dst>[^\s;]+)`, ignorecase)
at the start of the text; returns the two captures and the rest of the text
after the match.  The greedy character classes of the pattern are disjoint
from their successors, so the only backtracking point is the `to|with`
alternation, which is tried in order with its continuation. -/
def matchConnectAt (cs : List Char) : Option (String × String × List Char) :=
  match dropLitCI "connect".toList cs with
  | none => none
  | some r1 =>
    let ws1 := r1.span pyWsChar
    if ws1.1.isEmpty then none
    else
      let src := ws1.2.span (fun c => !pyWsChar c)
      if src.1.isEmpty then none
      else
        let ws15 := src.2.span pyWsChar
        if ws15.1.isEmpty then none
        else
          match matchTailKw "to" ws15.2 with
          | some (dst, after) => some (String.mk src.1, dst, after)
          | none =>
            match matchTailKw "with" ws15.2 with
            | some (dst, after) => some (String.mk src.1, dst, after)
            | none => none

/-- One attempted match of `FLOW_RE`
(`from\s+(?P<src>[^\s]+)\s+to\s+(?P<dst>[^\s;]+)`, ignorecase) at the start
of the text. -/
def matchFlowAt (cs : List Char) : Option (String × String × List Char) :=
  match dropLitCI "from".toList cs with
  | none => none
  | some r1 =>
    let ws1 := r1.span pyWsChar
    if ws1.1.isEmpty then none
    else
      let src := ws1.2.span (fun c => !pyWsChar c)
      if src.1.isEmpty then none
      else
        let ws15 := src.2.span pyWsChar
        if ws15.1.isEmpty then none
        else
          match matchTailKw "to" ws15.2 with
          | some (dst, after) => some (String.mk src.1, dst, after)
          | none => none

/-- The character class `[\w\.]` of `ROLE_RE` (ASCII `\w` plus the dot). -/
def wordDotChar (c : Char) : Bool := c.isAlphanum || c == '_' || c == '.'

/-- The tail `\s+(?P<name>[\w\.]+)\s*:\s*(?P<target>[^\s;]+)` of `ROLE_RE`
after one of its keywords. -/
def matchRoleTail (r1 : List Char) : Option (String × String × List Char) :=
  let ws1 := r1.span pyWsChar
  if ws1.1.isEmpty then none
  else
    let nm := ws1.2.span wordDotChar
    if nm.1.isEmpty then none
    else
      let ws2 := nm.2.span pyWsChar
      match ws2.2 with
      | ':' :: r2 =>
        let ws3 := r2.span pyWsChar
        let tgt := ws3.2.span (fun c => !(pyWsChar c || c == ';'))
        if tgt.1.isEmpty then none
        else some (String.mk nm.1, String.mk tgt.1, tgt.2)
      | _ => none

/-- One attempted match of `ROLE_RE`
(`(?:subject|actor|item|port)\s+(?P<name>[\w\.]+)\s*:\s*(?P<target>[^\s;]+)`,
ignorecase) at the start of the text.  The four alternatives start with
distinct letters, so at most one of the literals can match. -/
def matchRoleAt (cs : List Char) : Option (String × String × List Char) :=
  match dropLitCI "subject".toList cs with
  | some r => matchRoleTail r
  | none =>
    match dropLitCI "actor".toList cs with
    | some r => matchRoleTail r
    | none =>
      match dropLitCI "item".toList cs with
      | some r => matchRoleTail r
      | none =>
        match dropLitCI "port".toList cs with
        | some r => matchRoleTail r
        | none => none

/-- `re.finditer` over a line: scan left to right, emit non-overlapping
matches, resume after each match end, advance one character on failure.  The
fuel argument (instantiated with the text length) bounds the number of scan
steps, each of which consumes at least one character. -/
def finditerAux (matchAt : List Char → Option (String × String × List Char)) :
    Nat → List Char → List (String × String)
  | 0, _ => []
  | _ + 1, [] => []
  | fuel + 1, c :: rest =>
    match matchAt (c :: rest) with
    | some (s, d, after) => (s, d) :: finditerAux matchAt fuel after
    | none => finditerAux matchAt fuel rest

/-- `SysMLParser._extract_relations`: the three independent pattern scans,
each appending a relation for every match whose cleaned source and target
are non-empty. -/
def extractRelations (line : String) (m : SysMLModel) : SysMLModel :=
  let cs := line.toList
  let m1 := (finditerAux matchConnectAt cs.length cs).foldl (fun acc sd =>
    let src := cleanIdentifier sd.1
    let dst := cleanIdentifier sd.2
    if src ≠ "" ∧ dst ≠ "" then
      addRelation acc ⟨src, dst, "connects", some "connects"⟩
    else acc) m
  let m2 := (finditerAux matchFlowAt cs.length cs).foldl (fun acc sd =>
    let src := cleanIdentifier sd.1
    let dst := cleanIdentifier sd.2
    if src ≠ "" ∧ dst ≠ "" then
      addRelation acc ⟨src, dst, "flows", some "flows"⟩
    else acc) m1
  (finditerAux matchRoleAt cs.length cs).foldl (fun acc sd =>
    let src := cleanIdentifier sd.1
    let dst := cleanIdentifier sd.2
    if src ≠ "" ∧ dst ≠ "" then
      addRelation acc ⟨src, dst, "typed", some "role"⟩
    else acc) m2

/-! ### Package declaration regex and the scope stack -/

/-- The capture group `([^ {]+)` of the package regex: a maximal non-empty
run of characters other than a space or an opening brace. -/
def pkgGroupAt (cs : List Char) : Option String :=
  let g := cs.takeWhile (fun c => !(c == ' ' || c == '\x7b'))
  if g.isEmpty then none else some (String.mk g)

/-- Backtracking over the greedy `\s+` of the package regex: try consuming
`n` whitespace characters, then `n - 1`, ..., then `1`; the group must be
non-empty at the chosen position. -/
def pkgTry (rest : List Char) : Nat → Option String
  | 0 => none
  | n + 1 =>
    match pkgGroupAt (rest.drop (n + 1)) with
    | some g => some g
    | none => pkgTry rest n

/-- `re.match(r"^package\s+([^ {]+)", line, re.IGNORECASE)`: the captured
group, if the line matches. -/
def packageMatch (line : String) : Option String :=
  let cs := line.toList
  if (cs.take 7).map Char.toLower = "package".toList then
    let rest := cs.drop 7
    pkgTry rest (rest.takeWhile pyWsChar).length
  else none

/-- `PackageContext` from `parser.py`: one entry of the scope stack. -/
structure PackageContext where
  name : String
  brace_balance : Int
deriving Repr, DecidableEq

/-- `line.count("{") - line.count("}")`. -/
def braceDelta (line : String) : Int :=
  (line.toList.count '\x7b' : Int) - (line.toList.count '\x7d' : Int)

/-- The `while` loop of `SysMLParser._update_stack`, with the balance of the
current stack top held separately so that the recursion is structural on the
rest of the stack: if the top's counter is positive the loop stops; otherwise
the top is popped and, when the counter is negative, its deficit is added to
the next entry's counter before that entry is examined in turn. -/
def popLoopGo (nm : String) (bal : Int) : List PackageContext → List PackageContext
  | [] => if bal ≤ 0 then [] else [⟨nm, bal⟩]
  | c2 :: rest2 =>
    if bal ≤ 0 then
      if bal < 0 then popLoopGo c2.name (c2.brace_balance + bal) rest2
      else popLoopGo c2.name c2.brace_balance rest2
    else ⟨nm, bal⟩ :: c2 :: rest2

/-- The `while` loop of `SysMLParser._update_stack`: pop scopes whose
counter dropped to zero or below, propagating a negative counter onto the
new top of stack.  The stack top is the head of the list. -/
def popLoop : List PackageContext → List PackageContext
  | [] => []
  | c :: rest => popLoopGo c.name c.brace_balance rest

/-- `SysMLParser._update_stack`: add the line's brace delta to the top of
stack, then run the pop loop.  An empty stack is returned unchanged. -/
def updateStack (stack : List PackageContext) (line : String) : List PackageContext :=
  match stack with
  | [] => []
  | top :: rest =>
    popLoop ({ top with brace_balance := top.brace_balance + braceDelta line } :: rest)

/-! ### Line handling and comment stripping -/

/-- One step of the `while` semantics check: a positive balance stops the
loop immediately. -/
theorem popLoopGo_pos (nm : String) (bal : Int) (rest : List PackageContext)
    (hb : 0 < bal) : popLoopGo nm bal rest = ⟨nm, bal⟩ :: rest := by
  cases rest with
  | nil => unfold popLoopGo; rw [if_neg (by omega)]
  | cons c2 rest2 => unfold popLoopGo; rw [if_neg (by omega)]

/-- `str.splitlines()` accumulator; `acc` holds the current line reversed.
Line boundaries are `\r\n`, `\n` and `\r`; no empty final line is produced
for a trailing newline. -/
def pySplitlinesAux : List Char → List Char → List String
  | [], acc => if acc.isEmpty then [] else [String.mk acc.reverse]
  | '\r' :: '\n' :: rest, acc => String.mk acc.reverse :: pySplitlinesAux rest []
  | '\n' :: rest, acc => String.mk acc.reverse :: pySplitlinesAux rest []
  | '\r' :: rest, acc => String.mk acc.reverse :: pySplitlinesAux rest []
  | c :: rest, acc => pySplitlinesAux rest (c :: acc)

/-- `str.splitlines()`. -/
def pySplitlines (s : String) : List String := pySplitlinesAux s.toList []

/-- Scan for the closing `*/` of a block comment; returns the text after it,
or `none` when it never closes. -/
def dropToClose : List Char → Option (List Char)
  | [] => none
  | c :: rest =>
    match c, rest with
    | '*', '/' :: rest2 => some rest2
    | _, _ => dropToClose rest

/-- `SysMLParser._strip_block_comments`:
`re.sub(r"/\*.*?\*/", "", text, flags=re.DOTALL)`.  Each `/*` is removed
together with everything up to the nearest following `*/`; a `/*` with no
closing `*/` is left in place (the pattern cannot match it, nor anything
after it).  The fuel argument (instantiated with the text length) bounds the
number of steps, each of which consumes at least one character. -/
def stripBCAux : Nat → List Char → List Char
  | 0, cs => cs
  | _ + 1, [] => []
  | fuel + 1, '/' :: '*' :: rest =>
    (match dropToClose rest with
     | some rest2 => stripBCAux fuel rest2
     | none => '/' :: '*' :: rest)
  | fuel + 1, c :: rest => c :: stripBCAux fuel rest

def stripBlockComments (s : String) : String :=
  String.mk (stripBCAux s.toList.length s.toList)

/-- `line.startswith("//")`. -/
def startsWithSlashes (line : String) : Bool :=
  match line.toList with
  | '/' :: '/' :: _ => true
  | _ => false

/-- `line.split("//", 1)[0]` when the line contains `//`, else `none`. -/
def splitFirstDS : List Char → Option (List Char)
  | '/' :: '/' :: _ => some []
  | c :: rest => (splitFirstDS rest).map (fun l => c :: l)
  | [] => none

/-! ### The main parse loop (`SysMLParser.parse`) -/

/-- The loop state of `SysMLParser.parse`: the model under construction and
the package scope stack (top at the head). -/
structure ParseState where
  model : SysMLModel
  stack : List PackageContext
deriving Repr, DecidableEq

/-- One iteration of the line loop of `SysMLParser.parse`. -/
def processLine (st : ParseState) (raw : String) : ParseState :=
  let line := pyStrip raw
  let updated := updateStack st.stack raw
  if line = "" then { st with stack := updated }
  else if startsWithSlashes line then { st with stack := updated }
  else
    let line :=
      match splitFirstDS line.toList with
      | some before => pyStrip (String.mk before)
      | none => line
    if line = "" then { st with stack := updated }
    else
      match packageMatch line with
      | some g =>
        let pname := cleanIdentifier g
        { model := addPackage st.model pname,
          stack := updateStack (⟨pname, 0⟩ :: st.stack) raw }
      | none =>
        let pkg := st.stack.head?.map (fun c => c.name)
        let tokens := tokenizeLine line
        match parseDefinition tokens pkg st.model with
        | some m2 => { model := m2, stack := updated }
        | none => { model := extractRelations line st.model, stack := updated }

/-- `SysMLParser.parse`: strip block comments, process each line, then run
`ensure_relation_nodes`. -/
def parse (text : String) (sourcePath : Option String) : SysMLModel :=
  let cleaned := stripBlockComments text
  let final := (pySplitlines cleaned).foldl processLine
    { model := { source_path := sourcePath }, stack := [] }
  ensureRelationNodes final.model

/-! ### Renderer (`renderer.py`)

Coordinates in the Python code are integers except where a division by two
produces a float; `floatIntStr` and `floatHalfStr` reproduce Python's float
formatting (`110.0`, `403.5`) for those spots. -/

def GLOBAL_PACKAGE : String := "__global__"

def nodeWidth : Nat := 220

def nodeHeight : Nat := 88

def marginX : Nat := 36

def marginY : Nat := 64

def gapX : Nat := 48

def gapY : Nat := 32

/-- Python `repr` of the float `n / 2` when `n` is even: `"k.0"`. -/
def floatIntStr (n : Nat) : String := toString n ++ ".0"

/-- Python `repr` of the float `n / 2` (used for edge-label midpoints,
which are integers or half-integers). -/
def floatHalfStr (n : Nat) : String :=
  if n % 2 = 0 then toString (n / 2) ++ ".0" else toString (n / 2) ++ ".5"

/-- Python `html.escape` with its default `quote=True`. -/
def pyHtmlEscape (s : String) : String :=
  String.join (s.toList.map (fun c =>
    if c = '&' then "&amp;"
    else if c = '<' then "&lt;"
    else if c = '>' then "&gt;"
    else if c = '"' then "&quot;"
    else if c = aposChar then "&#x27;"
    else String.mk [c]))

/-- The `normalize` helper of `_package_columns` / `_layout_nodes` and the
`node.package or GLOBAL_PACKAGE` of `_row_counts`: empty or missing package
names map to the implicit global column. -/
def normalizePkg (p : Option String) : String :=
  match p with
  | some s => if s = "" then GLOBAL_PACKAGE else s
  | none => GLOBAL_PACKAGE

/-- `SysMLRenderer._package_columns`: declared packages (in order) that own
at least one node, then any further node package names in first-seen order,
with the global column as fallback. -/
def packageColumns (nodes : List SysMLElement) (m : SysMLModel) : List String :=
  let declared := (m.packages.map (fun p => p.name)).filter
    (fun pkg => nodes.any (fun n => normalizePkg n.package == pkg))
  let names := nodes.foldl (fun acc n =>
    let nm := normalizePkg n.package
    if nm ∈ acc then acc else acc ++ [nm]) declared
  if names.isEmpty then [GLOBAL_PACKAGE] else names

/-- `NodePosition` from `renderer.py` (the values placed are integral). -/
structure NodePosition where
  x : Nat
  y : Nat
deriving Repr, DecidableEq

/-- `placements[name] = pos` on a dictionary modelled as an association
list: replace an existing binding, else append. -/
def placeInsert (pl : List (String × NodePosition)) (k : String) (v : NodePosition) :
    List (String × NodePosition) :=
  if pl.any (fun q => q.1 == k) then pl.map (fun q => if q.1 == k then (k, v) else q)
  else pl ++ [(k, v)]

/-- Dictionary lookup in the placements. -/
def placeLookup (pl : List (String × NodePosition)) (k : String) : Option NodePosition :=
  (pl.find? (fun q => q.1 == k)).map (fun q => q.2)

/-- `SysMLRenderer._layout_nodes`.  The Python `columns` dictionary maps
each package name to the sub-list of nodes with that normalized package, in
encounter order, which is exactly a filter of the node list. -/
def layoutNodes (nodes : List SysMLElement) (packageNames : List String) :
    List (String × NodePosition) :=
  (packageNames.enum).foldl (fun pl ip =>
    let colNodes := nodes.filter (fun n => normalizePkg n.package == ip.2)
    (colNodes.enum).foldl (fun pl2 jn =>
      placeInsert pl2 jn.2.name
        ⟨marginX + ip.1 * (nodeWidth + gapX), marginY + jn.1 * (nodeHeight + gapY)⟩) pl) []

/-- The values of the `SysMLRenderer._row_counts` dictionary, in key
insertion order: keys are the (dict-deduplicated) column names followed by
any further node package names in first-seen order. -/
def rowCountsVals (nodes : List SysMLElement) (packageNames : List String) : List Nat :=
  let keys := nodes.foldl (fun ks n =>
    let k := normalizePkg n.package
    if k ∈ ks then ks else ks ++ [k]) (pyDedup packageNames)
  keys.map (fun k => (nodes.filter (fun n => normalizePkg n.package == k)).length)

/-- `SysMLRenderer._canvas_width` (the guard `columns <= 0` can only mean
`columns = 0` for a list length). -/
def canvasWidth (columns : Nat) : Nat :=
  let c := if columns = 0 then 1 else columns
  marginX * 2 + c * nodeWidth + (c - 1) * gapX

/-- `SysMLRenderer._canvas_height`. -/
def canvasHeight (rows : Nat) : Nat :=
  let r := if rows = 0 then 1 else rows
  marginY * 2 + r * nodeHeight + (r - 1) * gapY

/-- `SysMLRenderer._style_block` (the triple-quoted CSS constant, after its
`.strip()`). -/
def styleBlock : String :=
  String.intercalate "\n" [
    "<style>",
    ".sysmlv2-canvas \x7b",
    "  fill: #0f111a;",
    "  stroke: #1f2334;",
    "  stroke-width: 1;",
    "\x7d",
    ".sysmlv2-package \x7b",
    "  font: 700 14px \"SFMono-Regular\", Consolas, monospace;",
    "  fill: #cdd9ff;",
    "  text-anchor: middle;",
    "\x7d",
    ".sysmlv2-node rect \x7b",
    "  fill: #1f2334;",
    "  stroke: #5c6bc0;",
    "  stroke-width: 1.4;",
    "\x7d",
    ".sysmlv2-node--external rect \x7b",
    "  stroke-dasharray: 6 4;",
    "  stroke: #999fbf;",
    "\x7d",
    ".sysmlv2-node__title \x7b",
    "  font: 600 16px \"Inter\", \"Segoe UI\", sans-serif;",
    "  fill: #f4f6ff;",
    "\x7d",
    ".sysmlv2-node__meta, .sysmlv2-node__detail tspan, .sysmlv2-node__detail \x7b",
    "  font: 500 12px \"Inter\", \"Segoe UI\", sans-serif;",
    "  fill: #aeb8d9;",
    "\x7d",
    ".sysmlv2-edge \x7b",
    "  stroke: #7f91ff;",
    "  stroke-width: 1.5;",
    "  fill: none;",
    "\x7d",
    ".sysmlv2-edge-label \x7b",
    "  font: 600 12px \"Inter\", sans-serif;",
    "  fill: #9fb0ff;",
    "  text-anchor: middle;",
    "\x7d",
    ".sysmlv2-empty \x7b",
    "  font: 600 16px \"Inter\", sans-serif;",
    "  fill: #aeb8d9;",
    "  text-anchor: middle;",
    "\x7d",
    "</style>" ]

def xmlDecl : String := "<?xml version=\"1.0\" encoding=\"UTF-8\"?>"

def defsMarker : String :=
  "<defs><marker id=\"sysmlv2-arrow\" viewBox=\"0 0 10 10\" refX=\"10\" refY=\"5\" " ++
  "markerUnits=\"strokeWidth\" markerWidth=\"10\" markerHeight=\"7\" orient=\"auto\">" ++
  "<path d=\"M 0 0 L 10 5 L 0 10 z\"></path></marker></defs>"

/-- `SysMLRenderer._render_nodes`: one card per placed node. -/
def renderNodes (nodes : List SysMLElement) (pl : List (String × NodePosition)) : String :=
  String.join (nodes.map (fun node =>
    match placeLookup pl node.name with
    | none => ""
    | some pos =>
      let classAttr := String.intercalate " "
        (["sysmlv2-node"] ++ (if node.external then ["sysmlv2-node--external"] else []))
      let headline := pyHtmlEscape node.name
      let metaBits := [node.kind] ++
        (if pyTruthy node.flavor then [node.flavor.getD ""] else []) ++
        (if node.modifiers.isEmpty then [] else node.modifiers)
      let metaText := String.intercalate " · " metaBits
      let details :=
        (if node.specializes.isEmpty then [] else
          ["⇢ " ++ String.intercalate ", " node.specializes]) ++
        (if node.type_of.isEmpty then [] else
          ["↦ " ++ String.intercalate ", " node.type_of])
      let detailSpans := String.join (details.map (fun detail =>
        "<tspan x=\"" ++ toString (pos.x + 16) ++ "\" dy=\"1.2em\">" ++
          pyHtmlEscape detail ++ "</tspan>"))
      "<g class=\"" ++ classAttr ++ "\" transform=\"translate(" ++ toString pos.x ++
        "," ++ toString pos.y ++ ")\">" ++
        "<rect width=\"" ++ toString nodeWidth ++ "\" height=\"" ++ toString nodeHeight ++
        "\" rx=\"8\" ry=\"8\"></rect>" ++
        "<text class=\"sysmlv2-node__title\" x=\"16\" y=\"28\">" ++ headline ++ "</text>" ++
        "<text class=\"sysmlv2-node__meta\" x=\"16\" y=\"48\">" ++ pyHtmlEscape metaText ++
        "</text>" ++
        "<text class=\"sysmlv2-node__detail\" x=\"16\" y=\"64\">" ++ detailSpans ++
        "</text>" ++ "</g>"))

/-- `SysMLRenderer._render_edges`: straight connector plus midpoint label
for every relation whose endpoints are both placed; others are skipped. -/
def renderEdges (relations : List SysMLRelation) (pl : List (String × NodePosition)) :
    String :=
  String.join (relations.map (fun r =>
    match placeLookup pl r.source, placeLookup pl r.target with
    | some src, some dst =>
      let x1 := src.x + nodeWidth / 2
      let y1 := src.y + nodeHeight / 2
      let x2 := dst.x + nodeWidth / 2
      let y2 := dst.y + nodeHeight / 2
      let label := match r.label with
        | some l => if l = "" then r.relation else l
        | none => r.relation
      "<path class=\"sysmlv2-edge\" d=\"M " ++ floatIntStr x1 ++ " " ++ floatIntStr y1 ++
        " L " ++ floatIntStr x2 ++ " " ++ floatIntStr y2 ++
        "\" marker-end=\"url(#sysmlv2-arrow)\"></path>" ++
        "<text class=\"sysmlv2-edge-label\" x=\"" ++ floatHalfStr (x1 + x2) ++
        "\" y=\"" ++ floatHalfStr (y1 + y2) ++ "\">" ++ pyHtmlEscape label ++ "</text>"
    | _, _ => ""))

/-- `SysMLRenderer._render_package_labels`. -/
def renderPackageLabels (packageNames : List String) : String :=
  String.join ((packageNames.enum).map (fun ip =>
    let label := if ip.2 = GLOBAL_PACKAGE then "Global" else ip.2
    "<text class=\"sysmlv2-package\" x=\"" ++
      floatIntStr (marginX + ip.1 * (nodeWidth + gapX) + nodeWidth / 2) ++ "\" y=\"" ++
      floatHalfStr marginY ++ "\">" ++ pyHtmlEscape label ++ "</text>"))

/-- The lines of `SysMLRenderer._render_empty_svg` before joining. -/
def renderEmptySvgParts (title : String) (m : SysMLModel) (inline : Bool) : List String :=
  let desc := if pyTruthy m.source_path then pyHtmlEscape (m.source_path.getD "")
    else "No elements found"
  (if inline then [] else [xmlDecl]) ++
  [ "<svg xmlns=\"http://www.w3.org/2000/svg\" width=\"480\" height=\"200\" " ++
      "viewBox=\"0 0 480 200\" role=\"img\">",
    "<title>" ++ pyHtmlEscape title ++ "</title>",
    styleBlock,
    "<rect class=\"sysmlv2-canvas\" x=\"0\" y=\"0\" width=\"480\" height=\"200\" " ++
      "rx=\"8\" ry=\"8\"></rect>",
    "<text class=\"sysmlv2-empty\" x=\"240.0\" y=\"100.0\">No SysML elements detected</text>",
    "<desc>" ++ desc ++ "</desc>",
    "</svg>" ]

/-- `SysMLRenderer._render_empty_svg`: the fixed 480 x 200 canvas with the
"no elements" notice and the provenance diagnostic. -/
def renderEmptySvg (title : String) (m : SysMLModel) (inline : Bool) : String :=
  String.intercalate "\n" (renderEmptySvgParts title m inline)

/-- `SysMLRenderer.render_svg`. -/
def renderSvg (m : SysMLModel) (title : String) (inline : Bool) : String :=
  let nodes := m.nodes.filter (fun n => !(n.kind == "package"))
  if nodes.isEmpty then
    renderEmptySvg (if title = "" then "SysML model" else title) m inline
  else
    let packageNames := packageColumns nodes m
    let pl := layoutNodes nodes packageNames
    let rows := rowCountsVals nodes packageNames
    let width := canvasWidth packageNames.length
    let height := canvasHeight (if rows.isEmpty then 1 else rows.foldl Nat.max 0)
    let parts :=
      (if inline then [] else [xmlDecl]) ++
      [ "<svg xmlns=\"http://www.w3.org/2000/svg\" width=\"" ++ toString width ++
          "\" height=\"" ++ toString height ++ "\" viewBox=\"0 0 " ++ toString width ++
          " " ++ toString height ++ "\" role=\"img\">",
        "<title>" ++ pyHtmlEscape title ++ "</title>",
        styleBlock,
        defsMarker,
        "<rect class=\"sysmlv2-canvas\" x=\"0\" y=\"0\" width=\"" ++ toString width ++
          "\" height=\"" ++ toString height ++ "\" rx=\"8\" ry=\"8\"></rect>",
        renderPackageLabels packageNames,
        renderEdges m.relations pl,
        renderNodes nodes pl ] ++
      (if pyTruthy m.source_path then
        ["<desc>Source: " ++ pyHtmlEscape (m.source_path.getD "") ++ "</desc>"]
      else []) ++
      ["</svg>"]
    String.intercalate "\n" parts

/-- `SysMLRenderer.render`: dispatch on the format; `Except.error` models
the `ValueError` raised for an unsupported format. -/
def render (m : SysMLModel) (fmt title : String) (inline : Bool) : Except String String :=
  if fmt = "svg" then .ok (renderSvg m title inline)
  else if fmt = "html" then
    .ok ("<figure class=\"sysmlv2-diagram\">" ++ renderSvg m title true ++ "</figure>")
  else .error ("Unsupported format \x27" ++ fmt ++ "\x27")

/-! ### Lemmas about the scope stack -/

/-- A stack all of whose counters are positive is left unchanged by the pop
loop (the invariant the parser maintains for every entry below the top). -/
theorem popLoop_pos (l : List PackageContext) (hl : ∀ c ∈ l, 0 < c.brace_balance) :
    popLoop l = l := by
  cases l with
  | nil => rfl
  | cons c rest =>
    show popLoopGo c.name c.brace_balance rest = c :: rest
    rw [popLoopGo_pos c.name c.brace_balance rest (hl c (by simp))]

/-- A scope whose counter is exactly zero is popped and the loop stops at the
next entry when its counter is positive. -/
theorem popLoopGo_zero (nm : String) (rest : List PackageContext)
    (hrest : ∀ c ∈ rest, 0 < c.brace_balance) : popLoopGo nm 0 rest = rest := by
  cases rest with
  | nil => rfl
  | cons c2 rest2 =>
    unfold popLoopGo
    rw [if_pos (le_refl (0 : Int)), if_neg (by omega)]
    rw [popLoopGo_pos c2.name c2.brace_balance rest2 (hrest c2 (by simp))]

/-! ### Claim C8 -/

/-- The nested-packages text used to exercise the multi-pop behaviour: the
closing braces of packages `B` and `A` share a line, and a later element is
declared while only package `O` remains open. -/
def c8text : String :=
  "package O \x7b\npackage A \x7b\npackage B \x7b\npart X;\n\x7d \x7d\npart Y;\n\x7d"

/-- C8 (confirmed): a line whose brace delta is `-2`, processed while the two
topmost scopes each await one closing brace, pops both scopes (the negative
counter propagates its deficit to the new top of stack) and leaves the rest
of the stack — whose counters are positive, as the parser maintains —
untouched; concretely, in `c8text` the element on the line after `"} }"` is
attributed to the outer package `O` that remains on the stack. -/
theorem claim_C8_theorem (rest : List PackageContext) (inner outer : PackageContext)
    (line : String) (h1 : inner.brace_balance = 1) (h2 : outer.brace_balance = 1)
    (h3 : braceDelta line = -2) (hrest : ∀ c ∈ rest, 0 < c.brace_balance) :
    updateStack (inner :: outer :: rest) line = rest ∧
    (findNode (parse c8text none) "Y").map (fun e => e.package) = some (some "O") := by
  constructor
  · show popLoopGo inner.name (inner.brace_balance + braceDelta line) (outer :: rest) = rest
    rw [h1, h3, show (1 : Int) + -2 = -1 by norm_num]
    unfold popLoopGo
    rw [if_pos (by norm_num : (-1 : Int) ≤ 0), if_pos (by norm_num : (-1 : Int) < 0)]
    rw [h2, show (1 : Int) + -1 = 0 by norm_num]
    exact popLoopGo_zero outer.name rest hrest
  · decide

theorem claim_C8_witness :
    updateStack [⟨"B", 1⟩, ⟨"A", 1⟩, ⟨"O", 3⟩] "\x7d \x7d" = [⟨"O", 3⟩] ∧
    (findNode (parse c8text none) "Y").map (fun e => e.package) = some (some "O") :=
  claim_C8_theorem [⟨"O", 3⟩] ⟨"B", 1⟩ ⟨"A", 1⟩ "\x7d \x7d" rfl rfl (by decide)
    (by decide)

/-! ### Claim C9 -/

/-- C9 (confirmed): the scope pushed for a package-declaration line with no
braces (counter zero) is popped by that same line's stack update — the rest
of the stack, with positive counters, is untouched, so subsequent elements
are not attributed to that package; concretely, in `"package Q\npart Z;"`
the element `Z` carries no package. -/
theorem claim_C9_theorem (rest : List PackageContext) (pname : String) (line : String)
    (h0 : braceDelta line = 0) (hrest : ∀ c ∈ rest, 0 < c.brace_balance) :
    updateStack ((⟨pname, 0⟩ : PackageContext) :: rest) line = rest ∧
    findNode (parse "package Q\npart Z;" none) "Z" =
      some ⟨"Z", "part", none, none, [], [], [], false⟩ := by
  constructor
  · show popLoopGo pname ((0 : Int) + braceDelta line) rest = rest
    rw [h0, show (0 : Int) + 0 = 0 by norm_num]
    exact popLoopGo_zero pname rest hrest
  · decide

theorem claim_C9_witness :
    updateStack ((⟨"Q", 0⟩ : PackageContext) :: []) "package Q" = [] ∧
    findNode (parse "package Q\npart Z;" none) "Z" =
      some ⟨"Z", "part", none, none, [], [], [], false⟩ :=
  claim_C9_theorem [] "Q" "package Q" (by decide) (by decide)

/-! ### Claim C1 -/

/-- C1 (corrected): the claim is false on the code.  The whole input is one
physical line, and the line matches the package regex, so `parse` registers
package `P`, pushes and immediately pops its scope (the line's braces
balance), and `continue`s: the rest of the line (`part A : B; connect A to
C;`) is never examined.  No element `A` and no relation is ever produced. -/
theorem claim_C1_counterexample :
    findNode (parse "package P \x7b part A : B; connect A to C; \x7d" none) "A" = none ∧
    (parse "package P \x7b part A : B; connect A to C; \x7d" none).relations = [] := by
  exact ⟨by decide, by decide⟩

/-- C1 (corrected, amended): parsing the text
`package P { part A : B; connect A to C; }` produces a model containing
package `"P"` and nothing else — no elements and no relations — because the
package-declaration match consumes the entire line. -/
theorem claim_C1_theorem :
    parse "package P \x7b part A : B; connect A to C; \x7d" none =
      { source_path := none, nodes := [], relations := [],
        packages := [{ name := "P", description := none }] } := by
  decide

/-! ### Claim C2 -/

/-- The one-step unfolding of `collectIdentifiers` on a non-empty list. -/
theorem collectIdentifiers_cons (t : String) (rest : List String) :
    collectIdentifiers (t :: rest) =
      (if cleanIdentifier t = "" then collectIdentifiers rest
       else if cleanIdentifier t ∈ structuralKeywords then []
       else cleanIdentifier t :: collectIdentifiers rest) := rfl

/-- C2 (corrected): the claim is false as stated, because the stop test is
applied to the *cleaned* token and a bare `"{"` or `"}"` token cleans to the
empty string, which is *skipped* rather than stopping collection: the token
`"X"` appearing after the structural keyword token `"{"` is still added. -/
theorem claim_C2_counterexample :
    ("\x7b" ∈ structuralKeywords) ∧ collectIdentifiers ["\x7b", "X"] = ["X"] := by
  exact ⟨by decide, by decide⟩

/-- C2 (corrected, amended): identifier collection skips tokens whose
*cleaned* form is empty (bare braces clean to empty) and stops, without
inclusion, at the first token whose cleaned form is one of the structural
keywords; no token appearing after such a token is added. -/
theorem claim_C2_theorem (pre post : List String) (t : String)
    (h : cleanIdentifier t ∈ structuralKeywords) :
    collectIdentifiers (pre ++ t :: post) = collectIdentifiers pre := by
  induction pre with
  | nil =>
    rw [List.nil_append, collectIdentifiers_cons]
    have hne : ¬ cleanIdentifier t = "" := by
      intro hc
      rw [hc] at h
      exact absurd h (by decide)
    rw [if_neg hne, if_pos h]
    rfl
  | cons a pre ih =>
    rw [List.cons_append, collectIdentifiers_cons, collectIdentifiers_cons]
    by_cases ha : cleanIdentifier a = ""
    · rw [if_pos ha, if_pos ha, ih]
    · rw [if_neg ha, if_neg ha]
      by_cases hk : cleanIdentifier a ∈ structuralKeywords
      · rw [if_pos hk, if_pos hk]
      · rw [if_neg hk, if_neg hk, ih]

theorem claim_C2_witness :
    collectIdentifiers (["B;"] ++ "connect" :: ["Z"]) = collectIdentifiers ["B;"] :=
  claim_C2_theorem ["B;"] ["Z"] "connect" (by decide)

/-! ### Claim C6 -/

/-- C6 (confirmed): `render` succeeds exactly for the formats `"svg"` and
`"html"`; for every other format it returns the unsupported-format error
(carrying no markup) — and, being a total function of the model in this
embedding, it returns markup without raising for the two recognized formats
on every model. -/
theorem claim_C6_theorem (m : SysMLModel) (fmt title : String) (inline : Bool) :
    ((∃ s, render m fmt title inline = Except.ok s) ↔ (fmt = "svg" ∨ fmt = "html")) ∧
    (fmt ≠ "svg" → fmt ≠ "html" →
      render m fmt title inline =
        Except.error ("Unsupported format \x27" ++ fmt ++ "\x27")) := by
  constructor
  · constructor
    · intro hex
      obtain ⟨s, hs⟩ := hex
      by_cases h1 : fmt = "svg"
      · exact Or.inl h1
      by_cases h2 : fmt = "html"
      · exact Or.inr h2
      unfold render at hs
      rw [if_neg h1, if_neg h2] at hs
      exact absurd hs (by simp)
    · intro h
      rcases h with h | h
      · subst h
        exact ⟨renderSvg m title inline, by unfold render; rw [if_pos rfl]⟩
      · subst h
        refine ⟨"<figure class=\"sysmlv2-diagram\">" ++ renderSvg m title true ++
          "</figure>", ?_⟩
        unfold render
        rw [if_neg (by decide), if_pos rfl]
  · intro h1 h2
    unfold render
    rw [if_neg h1, if_neg h2]

theorem claim_C6_witness :
    render ({ } : SysMLModel) "png" "t" false =
      Except.error ("Unsupported format \x27" ++ "png" ++ "\x27") :=
  (claim_C6_theorem { } "png" "t" false).2 (by decide) (by decide)

/-! ### Claim C7 -/

/-- C7 (confirmed): a model with zero renderable elements (no node whose
kind differs from `"package"`) renders through `_render_empty_svg` — not
through the column layout — producing the fixed 480 x 200 canvas with the
"no elements" notice; the `<desc>` diagnostic carries the escaped source
provenance when one is present; and the output depends on the model only
through its provenance string.  Totality of the embedding models the
"never raises" part. -/
theorem claim_C7_theorem (m : SysMLModel) (title : String) (inline : Bool)
    (h : m.nodes.filter (fun n => !(n.kind == "package")) = []) :
    renderSvg m title inline =
      renderEmptySvg (if title = "" then "SysML model" else title) m inline ∧
    ("<text class=\"sysmlv2-empty\" x=\"240.0\" y=\"100.0\">No SysML elements detected</text>"
      ∈ renderEmptySvgParts (if title = "" then "SysML model" else title) m inline) ∧
    (∀ s, m.source_path = some s → s ≠ "" →
      ("<desc>" ++ pyHtmlEscape s ++ "</desc>")
        ∈ renderEmptySvgParts (if title = "" then "SysML model" else title) m inline) ∧
    (∀ m2 : SysMLModel, m2.nodes.filter (fun n => !(n.kind == "package")) = [] →
      m2.source_path = m.source_path →
      renderSvg m2 title inline = renderSvg m title inline) := by
  have hsvg : ∀ mm : SysMLModel, mm.nodes.filter (fun n => !(n.kind == "package")) = [] →
      renderSvg mm title inline =
        renderEmptySvg (if title = "" then "SysML model" else title) mm inline := by
    intro mm hmm
    unfold renderSvg
    rw [hmm]
    rfl
  refine ⟨hsvg m h, ?_, ?_, ?_⟩
  · unfold renderEmptySvgParts
    cases inline <;> simp
  · intro s hsp hs0
    have hT : pyTruthy (some s) = true := by
      have hb : (s == "") = false := by
        cases hb2 : s == "" with
        | true => exact absurd (by simpa using hb2) hs0
        | false => rfl
      show (!(s == "")) = true
      rw [hb]
      rfl
    unfold renderEmptySvgParts
    rw [hsp]
    cases inline <;> simp [hT]
  · intro m2 h2 hsp2
    rw [hsvg m2 h2, hsvg m h]
    unfold renderEmptySvg renderEmptySvgParts
    rw [hsp2]

theorem claim_C7_witness :
    renderSvg { source_path := some "docs/demo.sysml" } "T" false =
      renderEmptySvg (if "T" = "" then "SysML model" else "T")
        { source_path := some "docs/demo.sysml" } false ∧
    ("<desc>" ++ pyHtmlEscape "docs/demo.sysml" ++ "</desc>")
      ∈ renderEmptySvgParts (if "T" = "" then "SysML model" else "T")
        { source_path := some "docs/demo.sysml" } false := by
  have h := claim_C7_theorem { source_path := some "docs/demo.sysml" } "T" false (by decide)
  exact ⟨h.1, h.2.2.1 "docs/demo.sysml" rfl (by decide)⟩

end MkSys
